import Mathlib

/-!
Shallow embedding of the configuration-resolution subsystem of
`src/commitizen/config/config_loader.py` (class `ConfigLoader`), together
with models of its external collaborators (the per-format config sources,
the defaults catalogue, the git project-root finder) where those are not
part of the shown source.
-/

namespace Commitizen

/-- A filesystem path, modelled as its string form (Python `pathlib.Path`). -/
abbrev FsPath := String

/-- Raw file contents (Python `bytes`, read with `open(file, 'rb')`). -/
abbrev Bytes := String

/-- `dir / Path(fname)` from `search_config_files`: path joining. -/
def pathJoin (d : FsPath) (f : String) : FsPath := d ++ "/" ++ f

/-- Python's substring test `needle in hay`, on character lists. -/
def listContainsSub (needle : List Char) : List Char → Bool
  | [] => needle.isEmpty
  | c :: t => needle.isPrefixOf (c :: t) || listContainsSub needle t

/-- Python's substring test `needle in hay` on strings
(used by `load_config` as `"toml" in file.suffix` etc.). -/
def strContains (hay needle : String) : Bool :=
  listContainsSub needle.data hay.data

/-- The final path component (what `pathlib` calls the `name`). -/
def lastComponentChars (cs : List Char) : List Char :=
  (cs.reverse.takeWhile (fun c => c ≠ '/')).reverse

/-- `pathlib.PurePath.suffix` on a name: the part of the final component
from its last dot `.` onward, provided that dot is neither the first nor
the last character of the name; otherwise the empty string
(CPython: `i = name.rfind('.'); return name[i:] if 0 < i < len(name)-1 else ''`). -/
def pySuffixChars (name : List Char) : List Char :=
  let tail := name.reverse.takeWhile (fun c => c ≠ '.')
  if tail.length = name.length then []
  else
    let i := name.length - 1 - tail.length
    if 0 < i ∧ i < name.length - 1 then name.drop i else []

/-- `file.suffix` for a full path: the suffix of its final component. -/
def pySuffix (p : FsPath) : String :=
  String.mk (pySuffixChars (lastComponentChars p.data))

/-- A filesystem object: a regular file with contents, or a directory.
Python's `Path.exists()` is true for both; `open(..., 'rb')` succeeds only
on a file. -/
inductive FSEntry where
  | file (data : Bytes)
  | dir
deriving DecidableEq, Repr

/-- The filesystem state at call time: what (if anything) sits at each path. -/
structure FS where
  entry : FsPath → Option FSEntry

/-- Python `Path.exists()`: something (file or directory) is at the path. -/
def FS.pexists (fs : FS) (p : FsPath) : Bool := (fs.entry p).isSome

/-- The three known config formats of `load_config`'s dispatch chain. -/
inductive ConfigFormat where
  | toml
  | json
  | yaml
deriving DecidableEq, Repr

/-- The substring token `load_config` looks for in `file.suffix`. -/
def formatToken : ConfigFormat → String
  | .toml => "toml"
  | .json => "json"
  | .yaml => "yaml"

/-- The format-dispatch chain of `load_config`:
`if "toml" in file.suffix: ... elif "json" in file.suffix: ...
elif "yaml" in file.suffix: ...` (no else branch). `none` means the
chain falls through with `_config` left untouched. -/
def classifyFormat (sfx : String) : Option ConfigFormat :=
  if strContains sfx "toml" then some .toml
  else if strContains sfx "json" then some .json
  else if strContains sfx "yaml" then some .yaml
  else none

/-- Modelled from the spec: the outcome of a per-format parse. The classes
`TomlConfig`, `JsonConfig`, `YAMLConfig` and `BaseConfig` are imported by
`config_loader.py` but their sources are not shown; per the spec (§4.4)
each parses raw bytes into a settings mapping — failing with a ParseError
carrying the origin path on malformed content — and reports whether the
mapping is semantically empty. We keep exactly that contract. -/
inductive ParseOutcome where
  | malformed
  | parsed (isEmpty : Bool)
deriving DecidableEq, Repr

/-- Modelled from the spec: the family of per-format parsers, abstracted as
an oracle from format and raw bytes to a parse outcome. -/
structure ParseOracle where
  run : ConfigFormat → Bytes → ParseOutcome

/-- A constructed config source (`TomlConfig(data=data, path=file)` etc.):
format tag, origin path, raw bytes, and its `is_empty_config` flag. -/
structure ConfigSource where
  fmt : ConfigFormat
  path : FsPath
  data : Bytes
  is_empty_config : Bool
deriving DecidableEq, Repr

/-- Modelled from the spec: the resolved configuration returned by
`load_config` — either the default empty `BaseConfig()` (no origin path)
or a selected non-empty config source. -/
inductive ResolvedConfig where
  | default
  | fromSource (src : ConfigSource)
deriving DecidableEq, Repr

/-- The origin path of a resolved configuration (none for the default). -/
def ResolvedConfig.originPath : ResolvedConfig → Option FsPath
  | .default => none
  | .fromSource s => some s.path

/-- The ways the loading pipeline can fail (Python exceptions):
`typeError` — `dir / Path(fname)` with `dir = None` (no git root found);
`unboundLocal` — `_config` referenced before assignment (unsupported
extension with no previously constructed source);
`parseError p` — malformed content in the file at `p` (spec §4.4/§7);
`fileNotFound p` / `isADirectory p` — `open(p, 'rb')` failing. -/
inductive PyError where
  | typeError
  | unboundLocal
  | parseError (path : FsPath)
  | fileNotFound (path : FsPath)
  | isADirectory (path : FsPath)
deriving DecidableEq, Repr

/-- Modelled from the spec: the environment `get_config_dirs` consults —
`git.find_git_project_root()` (a path, or none when no enclosing checkout
exists; the `git` module's source is not shown) and `Path.home()`. -/
structure Env where
  gitRoot : Option FsPath
  home : FsPath

/-- `Path.home() / '.config/'` from `get_config_dirs`. -/
def homeConfigDir (E : Env) : FsPath := pathJoin E.home ".config"

/-- The unordered collection `set({git_proj_root_dir, home_config_dir})`
of `get_config_dirs`. Membership is determined; iteration order is not
(it depends on CPython's per-process hash seed), so we expose it as the
parameter `ord`, covering both possible orders. A `none` element models
Python `None` (git root not found). Equal elements collapse, as in a set. -/
def baseDirSet (E : Env) (ord : Bool) : List (Option FsPath) :=
  let g : Option FsPath := E.gitRoot
  let h : Option FsPath := some (homeConfigDir E)
  if g = h then [g] else if ord then [g, h] else [h, g]

/-- `ConfigLoader.get_config_dirs(customized_dir)`: the directories to
search. If the customized directory exists it is prepended to the set's
iteration; otherwise the set itself is returned (iterated in order `ord`). -/
def get_config_dirs (fs : FS) (E : Env) (ord : Bool) (customized_dir : FsPath) :
    List (Option FsPath) :=
  let dirs := baseDirSet E ord
  if fs.pexists customized_dir then some customized_dir :: dirs else dirs

/-- `ConfigLoader.search_config_files(dirs)`: for each directory in order,
for each catalogue basename in order, keep `dir / fname` when it exists.
Reaching a `None` directory raises a `TypeError` (Python evaluates
`None / Path(fname)`), aborting the whole enumeration. -/
def search_config_files (fs : FS) (config_files : List String) :
    List (Option FsPath) → Except PyError (List FsPath)
  | [] => .ok []
  | none :: _ => .error .typeError
  | some d :: rest =>
    match search_config_files fs config_files rest with
    | .error e => .error e
    | .ok found =>
      .ok (((config_files.map (pathJoin d)).filter fs.pexists) ++ found)

/-- The candidate loop of `ConfigLoader.load_config`. `prev` is the value
of the local variable `_config` from earlier iterations (`none` when it is
still unbound). For each file: read its bytes; dispatch on the suffix and
construct/parse the matching source (a parse failure propagates as a
ParseError); when no format matches, the chain falls through and
`_config.is_empty_config` consults the stale `prev` — raising
UnboundLocalError when there is none. An empty source means `continue`; a
non-empty one is returned; an exhausted list yields the default config. -/
def load_loop (O : ParseOracle) (fs : FS) :
    List FsPath → Option ConfigSource → Except PyError ResolvedConfig
  | [], _ => .ok .default
  | file :: rest, prev =>
    match fs.entry file with
    | none => .error (.fileNotFound file)
    | some .dir => .error (.isADirectory file)
    | some (.file data) =>
      match classifyFormat (pySuffix file) with
      | some fmt =>
        match O.run fmt data with
        | .malformed => .error (.parseError file)
        | .parsed isEmp =>
          let c : ConfigSource := ⟨fmt, file, data, isEmp⟩
          if c.is_empty_config then load_loop O fs rest (some c)
          else .ok (.fromSource c)
      | none =>
        match prev with
        | none => .error .unboundLocal
        | some c =>
          if c.is_empty_config then load_loop O fs rest (some c)
          else .ok (.fromSource c)

/-- `ConfigLoader.load_config()`: resolve directories, enumerate existing
candidate files, then scan them for the first non-empty parsed source.
`config_files` is the defaults catalogue (`defaults.config_files`), an
opaque ordered list supplied externally (its module is not shown). -/
def load_config (O : ParseOracle) (fs : FS) (E : Env) (ord : Bool)
    (config_files : List String) (path : FsPath) :
    Except PyError ResolvedConfig :=
  let dirs := get_config_dirs fs E ord path
  match search_config_files fs config_files dirs with
  | .error e => .error e
  | .ok files => load_loop O fs files none

/-- A candidate that `load_config` examines and passes over: it is a
readable regular file, its suffix matches a known format, and it parses
successfully to an empty settings mapping. -/
def Skippable (O : ParseOracle) (fs : FS) (f : FsPath) : Prop :=
  ∃ data fmt, fs.entry f = some (.file data) ∧
    classifyFormat (pySuffix f) = some fmt ∧ O.run fmt data = .parsed true

/-! ### Shared lemmas about the candidate loop and the enumeration -/

/-- One loop step over a skippable candidate: the source is constructed,
found empty, and the loop continues with `_config` bound to it. -/
theorem load_loop_skip (O : ParseOracle) (fs : FS) (f : FsPath)
    (rest : List FsPath) (prev : Option ConfigSource) (data : Bytes)
    (fmt : ConfigFormat)
    (h1 : fs.entry f = some (.file data))
    (h2 : classifyFormat (pySuffix f) = some fmt)
    (h3 : O.run fmt data = .parsed true) :
    load_loop O fs (f :: rest) prev =
      load_loop O fs rest (some ⟨fmt, f, data, true⟩) := by
  simp [load_loop, h1, h2, h3]

/-- A block of skippable candidates in front of the list is passed over:
the loop proceeds to the remaining candidates (with some `_config` value). -/
theorem load_loop_skips (O : ParseOracle) (fs : FS) (pre : List FsPath)
    (h : ∀ f ∈ pre, Skippable O fs f) :
    ∀ rest prev, ∃ prev2,
      load_loop O fs (pre ++ rest) prev = load_loop O fs rest prev2 := by
  induction pre with
  | nil => exact fun rest prev => ⟨prev, rfl⟩
  | cons f t ih =>
    intro rest prev
    obtain ⟨data, fmt, h1, h2, h3⟩ := h f (by simp)
    rw [List.cons_append, load_loop_skip O fs f (t ++ rest) prev data fmt h1 h2 h3]
    exact ih (fun g hg => h g (by simp [hg])) rest _

/-- A loop step over a readable, supported, non-empty candidate returns it
immediately, whatever `_config` held before. -/
theorem load_loop_win (O : ParseOracle) (fs : FS) (w : FsPath)
    (rest : List FsPath) (prev : Option ConfigSource) (data : Bytes)
    (fmt : ConfigFormat)
    (h1 : fs.entry w = some (.file data))
    (h2 : classifyFormat (pySuffix w) = some fmt)
    (h3 : O.run fmt data = .parsed false) :
    load_loop O fs (w :: rest) prev = .ok (.fromSource ⟨fmt, w, data, false⟩) := by
  simp [load_loop, h1, h2, h3]

/-- When every candidate is skippable the loop falls through and returns
the initial default configuration. -/
theorem load_loop_all_skippable (O : ParseOracle) (fs : FS)
    (files : List FsPath) (h : ∀ f ∈ files, Skippable O fs f) :
    ∀ prev, load_loop O fs files prev = .ok .default := by
  induction files with
  | nil => intro prev; rfl
  | cons f t ih =>
    intro prev
    obtain ⟨data, fmt, h1, h2, h3⟩ := h f (by simp)
    rw [load_loop_skip O fs f t prev data fmt h1 h2 h3]
    exact ih (fun g hg => h g (by simp [hg])) _

/-- Closed form of the enumeration when every directory is an actual path
(no `None`): directory-major, basename-minor, filtered by existence. -/
theorem search_config_files_map_some (fs : FS) (cfg : List String)
    (dirs : List FsPath) :
    search_config_files fs cfg (dirs.map some) =
      .ok (dirs.flatMap fun d => (cfg.map (pathJoin d)).filter fs.pexists) := by
  induction dirs with
  | nil => rfl
  | cons d t ih =>
    simp only [List.map_cons, search_config_files, ih, List.flatMap_cons]

/-- An enumeration over directories none of which is Python `None`
always succeeds. -/
theorem search_no_none (fs : FS) (cfg : List String) :
    ∀ dirs : List (Option FsPath), none ∉ dirs →
      ∃ L, search_config_files fs cfg dirs = .ok L := by
  intro dirs
  induction dirs with
  | nil => exact fun _ => ⟨[], rfl⟩
  | cons d t ih =>
    intro h
    match d with
    | none => simp at h
    | some e =>
      obtain ⟨L, hL⟩ := ih (fun hc => h (List.mem_cons_of_mem _ hc))
      exact ⟨((cfg.map (pathJoin e)).filter fs.pexists) ++ L,
        by simp [search_config_files, hL]⟩

/-- When a git project root was found, the unordered base set holds no
Python `None`. -/
theorem baseDirSet_no_none (E : Env) (ord : Bool) (g : FsPath)
    (hg : E.gitRoot = some g) : none ∉ baseDirSet E ord := by
  simp only [baseDirSet, hg]
  split
  · simp
  · split <;> simp

/-! ### Concrete fixtures used by witnesses -/

/-- A parse oracle whose mappings are empty exactly when the raw bytes are
empty, and which reports malformed content on the literal bytes `BAD`. -/
def strictOracle : ParseOracle :=
  ⟨fun _ data => if data = "BAD" then .malformed else .parsed (data == "")⟩

/-- A filesystem with an empty TOML candidate, a non-empty JSON candidate
and a non-empty YAML candidate under `repo`. -/
def fsA : FS :=
  ⟨fun p =>
    if p = "repo/.cz.toml" then some (.file "") else
    if p = "repo/.cz.json" then some (.file "k") else
    if p = "repo/.cz.yaml" then some (.file "zzz") else none⟩

/-- A filesystem with an empty TOML candidate, a malformed JSON candidate
and a valid non-empty YAML candidate under `repo`. -/
def fsB : FS :=
  ⟨fun p =>
    if p = "repo/.cz.toml" then some (.file "") else
    if p = "repo/.cz.json" then some (.file "BAD") else
    if p = "repo/.cz.yaml" then some (.file "good") else none⟩

/-- A filesystem holding only the extensionless candidate `repo/.cz`. -/
def fsC : FS :=
  ⟨fun p =>
    if p = "repo" then some .dir else
    if p = "repo/.cz" then some (.file "settings") else none⟩

/-- An environment whose git project root is `repo`. -/
def envC : Env := ⟨some "repo", "home"⟩

/-! ### The claims -/

/-- C1: the candidate loop of `load_config` returns the first candidate (in
enumeration order) whose parse succeeds with a non-empty settings mapping;
every earlier candidate that parses to an empty mapping is skipped, and the
result is the same whatever candidates follow the selected one — they are
never examined or read. -/
theorem claim1_first_nonempty_selected (O : ParseOracle) (fs : FS)
    (pre : List FsPath) (w : FsPath) (data : Bytes) (fmt : ConfigFormat)
    (hpre : ∀ f ∈ pre, Skippable O fs f)
    (hw : fs.entry w = some (.file data))
    (hfmt : classifyFormat (pySuffix w) = some fmt)
    (hparse : O.run fmt data = .parsed false) :
    ∀ rest prev, load_loop O fs (pre ++ w :: rest) prev =
      .ok (.fromSource ⟨fmt, w, data, false⟩) := by
  intro rest prev
  obtain ⟨prev2, hp⟩ := load_loop_skips O fs pre hpre (w :: rest) prev
  rw [hp, load_loop_win O fs w rest prev2 data fmt hw hfmt hparse]

/-- C1 witness: with an empty `.cz.toml` before it, the non-empty
`.cz.json` is selected, with a further candidate behind it. -/
theorem claim1_first_nonempty_selected_witness :
    load_loop strictOracle fsA
        (["repo/.cz.toml"] ++ "repo/.cz.json" :: ["repo/.cz.yaml"]) none =
      .ok (.fromSource ⟨.json, "repo/.cz.json", "k", false⟩) :=
  claim1_first_nonempty_selected strictOracle fsA ["repo/.cz.toml"]
    "repo/.cz.json" "k" .json
    (by
      intro f hf
      simp only [List.mem_singleton] at hf
      subst hf
      exact ⟨"", .toml, by decide, by decide, by decide⟩)
    (by decide) (by decide) (by decide) ["repo/.cz.yaml"] none

/-- C2: a malformed file of a known format at any examined candidate
position makes the loop fail with a ParseError carrying that file's path,
whatever candidates (including valid non-empty ones) come after it. -/
theorem claim2_parse_error_fatal (O : ParseOracle) (fs : FS)
    (pre : List FsPath) (bad : FsPath) (data : Bytes) (fmt : ConfigFormat)
    (hpre : ∀ f ∈ pre, Skippable O fs f)
    (hread : fs.entry bad = some (.file data))
    (hfmt : classifyFormat (pySuffix bad) = some fmt)
    (hbad : O.run fmt data = .malformed) :
    ∀ rest prev, load_loop O fs (pre ++ bad :: rest) prev =
      .error (.parseError bad) := by
  intro rest prev
  obtain ⟨prev2, hp⟩ := load_loop_skips O fs pre hpre (bad :: rest) prev
  rw [hp]
  simp [load_loop, hread, hfmt, hbad]

/-- C2 witness: the malformed `.cz.json` aborts the load even though the
valid, non-empty `.cz.yaml` comes right after it. -/
theorem claim2_parse_error_fatal_witness :
    load_loop strictOracle fsB
        (["repo/.cz.toml"] ++ "repo/.cz.json" :: ["repo/.cz.yaml"]) none =
      .error (.parseError "repo/.cz.json") :=
  claim2_parse_error_fatal strictOracle fsB ["repo/.cz.toml"]
    "repo/.cz.json" "BAD" .json
    (by
      intro f hf
      simp only [List.mem_singleton] at hf
      subst hf
      exact ⟨"", .toml, by decide, by decide, by decide⟩)
    (by decide) (by decide) (by decide) ["repo/.cz.yaml"] none

/-- C3: contrary to the claim, a candidate whose extension matches no known
format token is not skipped when it is the first examined candidate: the
dispatch chain has no else branch, `_config` is still unbound, and
`load_config` crashes with an UnboundLocalError. Here the git project root
`repo` contains only `.cz` (whose `pathlib` suffix is the empty string),
the catalogue is `[.cz]`, and the override directory does not exist. -/
theorem claim3_unsupported_first_crashes :
    load_config strictOracle fsC envC true [".cz"] "override" =
      .error .unboundLocal := by
  rfl

/-- A filesystem where the catalogue name `x` under directory `A` is a
directory, not a regular file. -/
def fsD : FS := ⟨fun p => if p = "A/x" then some .dir else none⟩

/-- A filesystem where directory `A` holds a non-empty `y.toml` and
directory `B` a non-empty `x.toml`. -/
def fsE : FS :=
  ⟨fun p =>
    if p = "A/y.toml" then some (.file "v") else
    if p = "B/x.toml" then some (.file "w") else none⟩

/-- A filesystem whose only candidate, `repo/.cz.toml`, is an empty file. -/
def fsF : FS := ⟨fun p => if p = "repo/.cz.toml" then some (.file "") else none⟩

/-- C4 counterexample: the enumeration emits `A/x` even though it is a
directory rather than a regular file — `search_config_files` checks bare
existence, so "emitted iff it exists as a regular file" fails here. -/
theorem claim4_counterexample_dir_emitted :
    search_config_files fsD ["x"] [some "A"] = .ok ["A/x"] ∧
      fsD.entry "A/x" = some .dir :=
  ⟨rfl, rfl⟩

/-- C4 (amended): candidate enumeration is directory-major and
basename-minor, and a path is emitted iff it exists at call time — whether
as a regular file or as a directory, since only bare existence is checked;
in particular with directories [A, B] and basenames [x, y], when A holds a
non-empty `y` and B a non-empty `x`, the enumeration is [A/y, B/x] and the
load selects A's `y`. -/
theorem claim4_enumeration_order (fs : FS) (cfg : List String)
    (dirs : List FsPath) (O : ParseOracle) (A B : FsPath) (x y : String)
    (dAy dBx : Bytes) (fmtAy : ConfigFormat)
    (hAy : fs.entry (pathJoin A y) = some (.file dAy))
    (hBx : fs.entry (pathJoin B x) = some (.file dBx))
    (hAx : fs.entry (pathJoin A x) = none)
    (hBy : fs.entry (pathJoin B y) = none)
    (hfmt : classifyFormat (pySuffix (pathJoin A y)) = some fmtAy)
    (hparse : O.run fmtAy dAy = .parsed false) :
    search_config_files fs cfg (dirs.map some) =
        .ok (dirs.flatMap fun d => (cfg.map (pathJoin d)).filter fs.pexists)
    ∧ search_config_files fs [x, y] [some A, some B] =
        .ok [pathJoin A y, pathJoin B x]
    ∧ load_loop O fs [pathJoin A y, pathJoin B x] none =
        .ok (.fromSource ⟨fmtAy, pathJoin A y, dAy, false⟩) := by
  refine ⟨search_config_files_map_some fs cfg dirs, ?_, ?_⟩
  · simp [search_config_files, FS.pexists, hAy, hBx, hAx, hBy]
  · exact load_loop_win O fs (pathJoin A y) [pathJoin B x] none dAy fmtAy
      hAy hfmt hparse

/-- C4 witness: the amended claim at a concrete filesystem — enumeration is
[A/y.toml, B/x.toml] and A's `y.toml` wins. -/
theorem claim4_enumeration_order_witness :
    search_config_files fsE ["x.toml", "y.toml"] [some "A", some "B"] =
        .ok ["A/y.toml", "B/x.toml"] ∧
      load_loop strictOracle fsE ["A/y.toml", "B/x.toml"] none =
        .ok (.fromSource ⟨.toml, "A/y.toml", "v", false⟩) :=
  ⟨(claim4_enumeration_order fsE ["x.toml", "y.toml"] ["A", "B"] strictOracle
      "A" "B" "x.toml" "y.toml" "v" "w" .toml (by decide) (by decide)
      (by decide) (by decide) (by decide) (by decide)).2.1,
    (claim4_enumeration_order fsE ["x.toml", "y.toml"] ["A", "B"] strictOracle
      "A" "B" "x.toml" "y.toml" "v" "w" .toml (by decide) (by decide)
      (by decide) (by decide) (by decide) (by decide)).2.2⟩

/-- C5: when the override directory exists and holds a recognized,
supported, non-empty candidate file — the catalogue basenames before it in
that directory being absent or parsing to empty mappings — `load_config`
returns that file's configuration, whatever the filesystem holds at the
version-control root or the home configuration directory (those paths are
unconstrained here), and for either iteration order of the base set. -/
theorem claim5_override_wins (O : ParseOracle) (fs : FS) (E : Env)
    (ord : Bool) (g ov : FsPath) (pre post : List String) (n : String)
    (data : Bytes) (fmt : ConfigFormat)
    (hg : E.gitRoot = some g)
    (hov : fs.pexists ov = true)
    (hpre : ∀ m ∈ pre,
      fs.entry (pathJoin ov m) = none ∨ Skippable O fs (pathJoin ov m))
    (hn : fs.entry (pathJoin ov n) = some (.file data))
    (hfmt : classifyFormat (pySuffix (pathJoin ov n)) = some fmt)
    (hparse : O.run fmt data = .parsed false) :
    load_config O fs E ord (pre ++ n :: post) ov =
      .ok (.fromSource ⟨fmt, pathJoin ov n, data, false⟩) := by
  obtain ⟨L, hL⟩ := search_no_none fs (pre ++ n :: post) (baseDirSet E ord)
    (baseDirSet_no_none E ord g hg)
  have hdirs : get_config_dirs fs E ord ov = some ov :: baseDirSet E ord := by
    simp [get_config_dirs, hov]
  have hpn : fs.pexists (pathJoin ov n) = true := by
    simp [FS.pexists, hn]
  have hmap : ((pre ++ n :: post).map (pathJoin ov)).filter fs.pexists
      = ((pre.map (pathJoin ov)).filter fs.pexists) ++
        pathJoin ov n :: ((post.map (pathJoin ov)).filter fs.pexists) := by
    simp [List.filter_append, hpn]
  have hsearch : search_config_files fs (pre ++ n :: post)
      (some ov :: baseDirSet E ord)
      = .ok ((((pre ++ n :: post).map (pathJoin ov)).filter fs.pexists) ++ L) := by
    simp [search_config_files, hL]
  have hskip : ∀ f ∈ (pre.map (pathJoin ov)).filter fs.pexists,
      Skippable O fs f := by
    intro f hf
    simp only [List.mem_filter, List.mem_map] at hf
    obtain ⟨⟨m, hm, rfl⟩, hex⟩ := hf
    rcases hpre m hm with h0 | h1
    · rw [FS.pexists, h0] at hex
      cases hex
    · exact h1
  simp only [load_config, hdirs, hsearch, hmap, List.append_assoc,
    List.cons_append]
  obtain ⟨prev2, hp⟩ := load_loop_skips O fs
    ((pre.map (pathJoin ov)).filter fs.pexists) hskip
    (pathJoin ov n :: (((post.map (pathJoin ov)).filter fs.pexists) ++ L)) none
  rw [hp]
  exact load_loop_win O fs (pathJoin ov n) _ prev2 data fmt hn hfmt hparse

/-- A filesystem for the C5 witness: the override directory `ov` exists and
holds an empty `.cz.toml` and a non-empty `.cz.json`; the git root `repo`
and the home config dir hold non-empty candidates of their own. -/
def fsG : FS :=
  ⟨fun p =>
    if p = "ov" then some .dir else
    if p = "ov/.cz.toml" then some (.file "") else
    if p = "ov/.cz.json" then some (.file "k") else
    if p = "repo/.cz.toml" then some (.file "root") else
    if p = "home/.config/.cz.toml" then some (.file "hm") else none⟩

/-- C5 witness: the override's `.cz.json` wins over non-empty candidates at
both the git root and the home config directory. -/
theorem claim5_override_wins_witness :
    load_config strictOracle fsG envC false [".cz.toml", ".cz.json"] "ov" =
      .ok (.fromSource ⟨.json, "ov/.cz.json", "k", false⟩) :=
  claim5_override_wins strictOracle fsG envC false "repo" "ov" [".cz.toml"]
    [] ".cz.json" "k" .json (by rfl) (by decide)
    (by
      intro m hm
      simp only [List.mem_singleton] at hm
      subst hm
      exact Or.inr ⟨"", .toml, by decide, by decide, by decide⟩)
    (by decide) (by decide) (by decide)

/-- C6: when the enumeration yields candidates that are all passed over
(in particular when it yields none at all), `load_config` returns the
default empty configuration, whose origin path is `none`. -/
theorem claim6_default_when_no_winner (O : ParseOracle) (fs : FS) (E : Env)
    (ord : Bool) (cfg : List String) (path : FsPath) (files : List FsPath)
    (hs : search_config_files fs cfg (get_config_dirs fs E ord path) =
      .ok files)
    (hall : ∀ f ∈ files, Skippable O fs f) :
    load_config O fs E ord cfg path = .ok .default ∧
      ResolvedConfig.originPath .default = none := by
  refine ⟨?_, rfl⟩
  simp only [load_config, hs]
  exact load_loop_all_skippable O fs files hall none

/-- C6 witness: the lone candidate `repo/.cz.toml` is an empty file, so the
default configuration (origin path `none`) is returned. -/
theorem claim6_default_when_no_winner_witness :
    load_config strictOracle fsF envC true [".cz.toml"] "override" =
        .ok .default ∧
      ResolvedConfig.originPath .default = none :=
  claim6_default_when_no_winner strictOracle fsF envC true [".cz.toml"]
    "override" ["repo/.cz.toml"] (by rfl)
    (by
      intro f hf
      simp only [List.mem_singleton] at hf
      subst hf
      exact ⟨"", .toml, by decide, by decide, by decide⟩)

/-- The empty filesystem. -/
def fsEmpty : FS := ⟨fun _ => none⟩

/-- An environment with git root `g` and home `hm`. -/
def envG : Env := ⟨some "g", "hm"⟩

/-- C7 counterexample: with git root `g` and home configuration directory
`hm/.config`, the two possible iteration orders of the unordered set give
different directory lists — the relative order of the version-control root
and the home configuration directory is not fixed by the code. -/
theorem claim7_counterexample_order_not_fixed :
    get_config_dirs fsEmpty envG true "ov" ≠
      get_config_dirs fsEmpty envG false "ov" := by
  decide

/-- C7 (amended): directory resolution is a side-effect-free function of
the filesystem state, the environment, and the unordered set's iteration
order: for a fixed iteration order (a fixed per-process hash seed) repeated
calls agree exactly, with the override directory first when it exists and
the same two base members always present; but the relative order of the
version-control root and the home configuration directory flips with the
iteration order instead of being fixed. -/
theorem claim7_resolution_deterministic_given_order (fs : FS) (E : Env)
    (ord : Bool) (c g : FsPath)
    (hg : E.gitRoot = some g) (hne : g ≠ homeConfigDir E) :
    get_config_dirs fs E ord c =
      (if fs.pexists c then [some c] else []) ++
        (if ord then [some g, some (homeConfigDir E)]
         else [some (homeConfigDir E), some g]) := by
  have hgh : (some g : Option FsPath) ≠ some (homeConfigDir E) := by
    simpa using hne
  simp only [get_config_dirs, baseDirSet, hg, if_neg hgh]
  cases ord <;> cases hc : fs.pexists c <;> simp [hc]

/-- C7 witness: the amended characterization at a concrete environment,
for iteration order `true`. -/
theorem claim7_resolution_deterministic_given_order_witness :
    get_config_dirs fsEmpty envG true "ov" =
      (if fsEmpty.pexists "ov" then [some "ov"] else []) ++
        (if true then [some "g", some (homeConfigDir envG)]
         else [some (homeConfigDir envG), some "g"]) :=
  claim7_resolution_deterministic_given_order fsEmpty envG true "ov" "g"
    (by rfl) (by decide)

/-- C8: the resolver's result always contains the version-control root
(when one was found) and the home configuration directory, for every
override argument; and when the override directory does not exist on disk
the result is exactly the base set — the override is dropped entirely
rather than de-prioritized. -/
theorem claim8_members_and_dropped_override (fs : FS) (E : Env) (ord : Bool)
    (c : FsPath) :
    (∀ g, E.gitRoot = some g → some g ∈ get_config_dirs fs E ord c) ∧
      some (homeConfigDir E) ∈ get_config_dirs fs E ord c ∧
      (fs.pexists c = false →
        get_config_dirs fs E ord c = baseDirSet E ord) := by
  have hbase : E.gitRoot ∈ baseDirSet E ord ∧
      some (homeConfigDir E) ∈ baseDirSet E ord := by
    simp only [baseDirSet]
    split
    · rename_i h
      constructor <;> simp [h]
    · split <;> simp
  refine ⟨?_, ?_, ?_⟩
  · intro g hg
    simp only [get_config_dirs]
    split
    · exact List.mem_cons_of_mem _ (hg ▸ hbase.1)
    · exact hg ▸ hbase.1
  · simp only [get_config_dirs]
    split
    · exact List.mem_cons_of_mem _ hbase.2
    · exact hbase.2
  · intro hc
    simp [get_config_dirs, hc]

/-- An environment in which no git project root was found. -/
def envN : Env := ⟨none, "hm"⟩

/-- C8 witness: at a concrete environment with no git root and a
non-existent override `ov`, the home configuration directory is still a
member and the result equals the base set. -/
theorem claim8_members_and_dropped_override_witness :
    (∀ g, envN.gitRoot = some g →
        some g ∈ get_config_dirs fsEmpty envN true "ov") ∧
      some (homeConfigDir envN) ∈ get_config_dirs fsEmpty envN true "ov" ∧
      (fsEmpty.pexists "ov" = false →
        get_config_dirs fsEmpty envN true "ov" = baseDirSet envN true) :=
  claim8_members_and_dropped_override fsEmpty envN true "ov"

/-- C9: format classification is by substring containment on the file's
extension: a candidate is dispatched to one of the known handlers iff its
suffix contains one of the tokens "toml", "json", "yaml"; the dispatched
handler's token is always contained in the suffix; and matching is not
exact-extension — ".tomlx" is classified as TOML. -/
theorem claim9_substring_classification (s : String) :
    ((classifyFormat s).isSome = true ↔
      (strContains s "toml" = true ∨ strContains s "json" = true ∨
        strContains s "yaml" = true))
    ∧ (∀ t, classifyFormat s = some t → strContains s (formatToken t) = true)
    ∧ classifyFormat ".tomlx" = some .toml := by
  refine ⟨?_, ?_, by decide⟩
  · cases h1 : strContains s "toml" <;>
      cases h2 : strContains s "json" <;>
        cases h3 : strContains s "yaml" <;>
          simp [classifyFormat, h1, h2, h3]
  · cases h1 : strContains s "toml" <;>
      cases h2 : strContains s "json" <;>
        cases h3 : strContains s "yaml" <;>
          simp [classifyFormat, formatToken, h1, h2, h3]

/-- C9 witness: the non-exact extension ".tomlx" is dispatched to TOML. -/
theorem claim9_substring_classification_witness :
    classifyFormat ".tomlx" = some ConfigFormat.toml :=
  (claim9_substring_classification ".tomlx").2.2

/-- An oracle that rejects every YAML document but otherwise behaves like
`strictOracle` — used to show the YAML handler is not consulted. -/
def yamlAltOracle : ParseOracle :=
  ⟨fun fmt data =>
    if fmt = .yaml then .malformed
    else if data = "BAD" then .malformed else .parsed (data == "")⟩

/-- A filesystem holding one file whose extension contains both "json" and
"yaml". -/
def fsH : FS := ⟨fun p => if p = "d/a.jsonyaml" then some (.file "k") else none⟩

/-- C10: dispatch priority is TOML, then JSON, then YAML: a suffix
containing "toml" goes to TOML whatever else it contains; "json" without
"toml" goes to JSON; "yaml" alone goes to YAML; the extension ".jsonyaml"
(matching two tokens) goes to JSON; and only the dispatched format's parser
is invoked for a candidate — two oracles agreeing on that format and
content give the same outcome on it. -/
theorem claim10_dispatch_priority (s : String) (O O2 : ParseOracle)
    (fs : FS) (f : FsPath) (data : Bytes) (fmt : ConfigFormat)
    (hread : fs.entry f = some (.file data))
    (hcls : classifyFormat (pySuffix f) = some fmt)
    (hagree : O.run fmt data = O2.run fmt data) :
    (strContains s "toml" = true → classifyFormat s = some .toml)
    ∧ (strContains s "toml" = false → strContains s "json" = true →
        classifyFormat s = some .json)
    ∧ (strContains s "toml" = false → strContains s "json" = false →
        strContains s "yaml" = true → classifyFormat s = some .yaml)
    ∧ classifyFormat ".jsonyaml" = some .json
    ∧ load_loop O fs [f] none = load_loop O2 fs [f] none := by
  refine ⟨?_, ?_, ?_, by decide, ?_⟩
  · intro h1
    simp [classifyFormat, h1]
  · intro h1 h2
    simp [classifyFormat, h1, h2]
  · intro h1 h2 h3
    simp [classifyFormat, h1, h2, h3]
  · simp only [load_loop, hread, hcls, ← hagree]

/-- C10 witness: on `d/a.jsonyaml` the oracle that rejects all YAML agrees
with the standard one — the YAML handler is never consulted, the JSON one
is used. -/
theorem claim10_dispatch_priority_witness :
    load_loop strictOracle fsH ["d/a.jsonyaml"] none =
      load_loop yamlAltOracle fsH ["d/a.jsonyaml"] none :=
  (claim10_dispatch_priority ".jsonyaml" strictOracle yamlAltOracle fsH
    "d/a.jsonyaml" "k" .json (by decide) (by decide) (by rfl)).2.2.2.2

end Commitizen
